import Mathlib

/-!
Verification of the BRO CPT classification app (src/app/bro/classification.py)
against its natural-language specification.

Modelling conventions: Python floats are exact rationals (ℚ), Python lists are
Lean lists, Python None inside a measurement series is Option.none, and
fallible code returns Except over a small Python-error type.  String work is
done on explicit character lists so that every definition evaluates by plain
reduction.  Each definition cites the source lines it embeds.
-/

namespace Bro

/-- Python runtime errors relevant to the embedded code paths.  userError is
the viktor UserError raised explicitly by the app. -/
inductive PyErr where
  | typeError : PyErr
  | valueError : PyErr
  | indexError : PyErr
  | attributeError : PyErr
  | zeroDivisionError : PyErr
  | keyError : String → PyErr
  | userError : String → PyErr
deriving DecidableEq, Repr

/-- Except-valued mapM specialised to PyErr, written by explicit recursion so
that proofs and concrete evaluations unfold it directly. -/
def exMapM {α β : Type} (f : α → Except PyErr β) : List α → Except PyErr (List β)
  | [] => .ok []
  | a :: rest =>
    match f a with
    | .error e => .error e
    | .ok b =>
      match exMapM f rest with
      | .error e => .error e
      | .ok bs => .ok (b :: bs)

/-- Option-valued mapM, same reasons. -/
def oMapM {α β : Type} (f : α → Option β) : List α → Option (List β)
  | [] => some []
  | a :: rest =>
    match f a with
    | none => none
    | some b =>
      match oMapM f rest with
      | none => none
      | some bs => some (b :: bs)

/-- Python s.split(sep) for a one-character separator.  Always returns at
least one fragment; a trailing separator yields a trailing empty fragment. -/
def splitOnChar (sep : Char) : List Char → List (List Char)
  | [] => [[]]
  | c :: rest =>
    match splitOnChar sep rest with
    | [] => [[]]
    | g :: gs => if c = sep then [] :: g :: gs else (c :: g) :: gs

/-- Python str.strip(): drop leading and trailing whitespace. -/
def pyStrip (s : List Char) : List Char :=
  ((s.dropWhile Char.isWhitespace).reverse.dropWhile Char.isWhitespace).reverse

/-- Accumulating decimal-digit reader: none as soon as a non-digit appears. -/
def digitsVal : List Char → Nat → Option Nat
  | [], acc => some acc
  | c :: rest, acc =>
    if c.isDigit then digitsVal rest (acc * 10 + (c.toNat - 48)) else none

/-- Nonempty all-digit string to Nat. -/
def digitsToNat (s : List Char) : Option Nat :=
  if s = [] then none else digitsVal s 0

/-- Python int(str): optional surrounding whitespace, optional sign, decimal
digits; anything else raises ValueError (modelled as none). -/
def pyInt (s : List Char) : Option Int :=
  match pyStrip s with
  | '-' :: rest => (digitsToNat rest).map (fun n => -(n : Int))
  | '+' :: rest => (digitsToNat rest).map (fun n => (n : Int))
  | rest => (digitsToNat rest).map (fun n => (n : Int))

/-- Unsigned decimal literal with optional fractional part, as an exact
rational. -/
def pyFloatCore (s : List Char) : Option ℚ :=
  let ip := s.takeWhile Char.isDigit
  let rest := s.dropWhile Char.isDigit
  match rest with
  | [] => if ip = [] then none else (digitsVal ip 0).map (fun n => (n : ℚ))
  | '.' :: fr =>
    let fp := fr.takeWhile Char.isDigit
    let rest2 := fr.dropWhile Char.isDigit
    if rest2 = [] ∧ ¬(ip = [] ∧ fp = []) then
      match digitsVal ip 0, digitsVal fp 0 with
      | some a, some b => some ((a : ℚ) + (b : ℚ) / (10 : ℚ) ^ fp.length)
      | _, _ => none
    else none
  | _ => none

/-- Python float(str) restricted to plain decimal literals (sign, digits,
optional fraction); exponent forms do not occur in the modelled inputs. -/
def pyFloat (s : List Char) : Option ℚ :=
  match pyStrip s with
  | '-' :: rest => (pyFloatCore rest).map (fun q => -q)
  | '+' :: rest => pyFloatCore rest
  | rest => pyFloatCore rest

/-- Python int(float): truncation toward zero. -/
def pyIntTrunc (q : ℚ) : ℤ := if 0 ≤ q then Int.floor q else Int.ceil q

/-- Python list indexing row[i] for a nonnegative index: IndexError when out
of range. -/
def pyIndex {α : Type} (l : List α) (i : Nat) : Except PyErr α :=
  match l.get? i with
  | some a => .ok a
  | none => .error .indexError

/-- Association-list lookup with decidable string equality (Python dict read;
keys are unique because insertion goes through upsert). -/
def alookup {β : Type} (k : String) : List (String × β) → Option β
  | [] => none
  | (k', v) :: rest => if k' = k then some v else alookup k rest

/-- Python dict assignment m[k] = v: replace the value at an existing key in
place, else append a new entry; insertion order is preserved. -/
def upsert {β : Type} (m : List (String × β)) (k : String) (v : β) :
    List (String × β) :=
  match m with
  | [] => [(k, v)]
  | (k', v') :: rest => if k' = k then (k, v) :: rest else (k', v') :: upsert rest k v

/-- Python del m[k] (dict pop): remove the single entry with key k. -/
def eraseKey {β : Type} : List (String × β) → String → List (String × β)
  | [], _ => []
  | (k', v') :: rest, k => if k' = k then rest else (k', v') :: eraseKey rest k

/-- The five aligned measurement series of measurement_data
(classification.py lines 50-56); a none entry models the Python None put in
place of the -999999 sentinel. -/
structure MeasData where
  Rf : List (Option ℚ)
  fs : List (Option ℚ)
  qc : List (Option ℚ)
  elevation : List (Option ℚ)
  corrected_depth : List (Option ℚ)
deriving DecidableEq, Repr

/-- One zipped row across the five series, in the dict insertion order of
lines 50-56. -/
abbrev Row5 := Option ℚ × Option ℚ × Option ℚ × Option ℚ × Option ℚ

/-- zip over five lists, truncating at the shortest (Python zip). -/
def zip5 {α : Type} : List α → List α → List α → List α → List α →
    List (α × α × α × α × α)
  | a :: as, b :: bs, c :: cs, d :: ds, e :: es =>
    (a, b, c, d, e) :: zip5 as bs cs ds es
  | _, _, _, _, _ => []

/-- Python "None in items" over a zipped row. -/
def hasNoneRow (r : Row5) : Bool :=
  r.1.isNone || r.2.1.isNone || r.2.2.1.isNone || r.2.2.2.1.isNone || r.2.2.2.2.isNone

/-- Indices collected by the enumerate loop of filter_nones_from_params_dict
(classification.py lines 236-239): positions whose zipped row contains None,
in ascending order starting from the given counter. -/
def collectBadIdx {α : Type} (P : α → Bool) : Nat → List α → List Nat
  | _, [] => []
  | i, r :: rest =>
    if P r then i :: collectBadIdx P (i + 1) rest else collectBadIdx P (i + 1) rest

/-- Python "del l[i] for i in reversed(idxs)" (lines 240-242): fold eraseIdx
over the reversed index list. -/
def deleteRows {α : Type} (l : List α) (idxs : List Nat) : List α :=
  idxs.reverse.foldl (fun acc i => acc.eraseIdx i) l

/-- zip(*raw_dict["measurement_data"].values()) (line 237): the series in
dict insertion order. -/
def measRows (d : MeasData) : List Row5 :=
  zip5 d.Rf d.fs d.qc d.elevation d.corrected_depth

/-- CPT.filter_nones_from_params_dict (classification.py lines 233-243).  The
Python function deletes the collected rows from the argument dict's series
lists in place (del statements) and returns that same dict object; the
embedding therefore returns the argument's post-state together with the
returned value, which are one and the same value. -/
def filter_nones_from_params_dict (d : MeasData) : MeasData × MeasData :=
  let idxs := collectBadIdx hasNoneRow 0 (measRows d)
  let d' : MeasData :=
    { Rf := deleteRows d.Rf idxs
      fs := deleteRows d.fs idxs
      qc := deleteRows d.qc idxs
      elevation := deleteRows d.elevation idxs
      corrected_depth := deleteRows d.corrected_depth idxs }
  (d', d')

/-- Specification-side row filter: walk rows and a series together, keeping
the series entries whose row does not satisfy P. -/
def dropMarked {α β : Type} (P : α → Bool) : List α → List β → List β
  | r :: rest, a :: l =>
    if P r then dropMarked P rest l else a :: dropMarked P rest l
  | _, _ => []

/-- Python truthiness of "qc != 0" at line 114: None != 0 is True, a float
compares numerically. -/
def pyNeZero : Option ℚ → Bool
  | none => true
  | some q => decide (q ≠ 0)

/-- Python division fs / qc on possibly-None floats: None operands raise
TypeError, a zero divisor raises ZeroDivisionError. -/
def pyDiv : Option ℚ → Option ℚ → Except PyErr ℚ
  | some a, some b => if b = 0 then .error .zeroDivisionError else .ok (a / b)
  | _, _ => .error .typeError

/-- One element of the Rf-derivation comprehension (line 114):
fs / qc if qc != 0 else None. -/
def rfCell (q f : Option ℚ) : Except PyErr (Option ℚ) :=
  if pyNeZero q then (pyDiv f q).map some else .ok none

/-- Lines 113-115: [fs / qc if qc != 0 else None for qc, fs in zip(qc, fs)],
evaluated left to right, truncating at the shorter list (zip). -/
def deriveRf : List (Option ℚ) → List (Option ℚ) → Except PyErr (List (Option ℚ))
  | q :: qs, f :: fs =>
    match rfCell q f with
    | .error e => .error e
    | .ok r =>
      match deriveRf qs fs with
      | .error e => .error e
      | .ok rest => .ok (r :: rest)
  | _, _ => .ok []

/-- Lines 112-115: if not measurement_data["Rf"], replace it by the derived
series. -/
def rfStep (md : MeasData) : Except PyErr MeasData :=
  if md.Rf = [] then
    match deriveRf md.qc md.fs with
    | .error e => .error e
    | .ok rs => .ok { md with Rf := rs }
  else .ok md

/-- The column mapping dict of lines 58-66: internal key to column index.  A
value can be None because line 86 stores penetration_length_index, which is
None when that column is absent. -/
abbrev ColMapping := List (String × Option Nat)

/-- GEF_XML_MAPPING (classification.py lines 38-45), in source order; note
"elevation" and "corrected_depth" share the label "depth". -/
def GEF_XML_MAPPING : List (String × String) :=
  [("Rf", "frictionRatio"), ("fs", "localFriction"), ("qc", "coneResistance"),
   ("elevation", "depth"), ("corrected_depth", "depth"),
   ("penetration_length", "penetrationLength")]

/-- Lines 58-65: for each (tag, active) parameter pair in order, bind each
internal key whose label equals the tag (when the flag is True) to that
pair's position. -/
def buildMapping (params : List (String × Bool)) : ColMapping :=
  params.enum.foldl
    (fun m p =>
      GEF_XML_MAPPING.foldl
        (fun m' kl =>
          if p.2.1 = kl.2 ∧ p.2.2 = true then upsert m' kl.1 (some p.1) else m')
        m)
    []

/-- Lines 75-78: split the values block on the block separator, discard the
last fragment (always an artifact of the trailing delimiter), and split each
remaining fragment on the token separator. -/
def splitDataRows (tokenSep blockSep : Char) (vals : List Char) :
    List (List (List Char)) :=
  ((splitOnChar blockSep vals).dropLast).map (splitOnChar tokenSep)

/-- Lines 66 and 84-88: pop penetration_length from the mapping; if no
elevation column is mapped, store the (possibly None) penetration-length
index under both "elevation" and "corrected_depth" and set the warning.
Returns (new mapping, warning message). -/
def substituteElevation (m0 : ColMapping) : ColMapping × Option String :=
  let pen : Option Nat := Option.join (alookup "penetration_length" m0)
  let m1 := eraseKey m0 "penetration_length"
  if (alookup "elevation" m1).isNone then
    (upsert (upsert m1 "elevation" pen) "corrected_depth" pen,
     some "Penetration length used as elevation as data was missing")
  else (m1, none)

/-- Key extraction of the sort lambda at line 90:
float(x[mapping["elevation"]]).  An absent key raises KeyError (caught at
line 92); a None stored under "elevation" makes x[None] raise TypeError,
which nothing catches; a malformed numeral raises ValueError. -/
def elevKey (m : ColMapping) (row : List (List Char)) : Except PyErr ℚ :=
  match alookup "elevation" m with
  | none => .error (.keyError "elevation")
  | some none => .error .typeError
  | some (some i) =>
    match pyIndex row i with
    | .error e => .error e
    | .ok cell =>
      match pyFloat cell with
      | some q => .ok q
      | none => .error .valueError

/-- Stable ascending insertion used to model Python sorted: a new element goes
after all existing elements with key less than or equal to its key. -/
def insertKeyed {α : Type} (a : ℚ × α) : List (ℚ × α) → List (ℚ × α)
  | [] => [a]
  | b :: rest => if b.1 ≤ a.1 then b :: insertKeyed a rest else a :: b :: rest

/-- Python sorted(rows, key=...) at line 90: the key is evaluated once per
row (an exception from it propagates); the sort is stable and ascending. -/
def sortRowsByElev (m : ColMapping) (rows : List (List (List Char))) :
    Except PyErr (List (List (List Char))) :=
  match exMapM (fun r =>
      match elevKey m r with
      | .error e => .error e
      | .ok k => .ok (k, r)) rows with
  | .error e => .error e
  | .ok keyed => .ok ((keyed.foldl (fun acc a => insertKeyed a acc) []).map (fun p => p.2))

/-- Lines 83-94: the try block around the sort; only a KeyError is converted
to the UserError of line 94, every other exception propagates unhandled. -/
def sortPhase (m : ColMapping) (rows : List (List (List Char))) :
    Except PyErr (List (List (List Char))) :=
  match sortRowsByElev m rows with
  | .error (.keyError k) => .error (.userError ("Missing " ++ k ++ " in XML data"))
  | r => r

/-- Per-cell conversion of the loop body at lines 97-110 for one mapped key:
parse the cell as a float, map the -999999 sentinel to None, and apply the
key-specific unit conversion. -/
def convertCell (elevationOffset : ℤ) (key : String) (i : Nat)
    (row : List (List Char)) : Except PyErr (Option ℚ) :=
  match pyIndex row i with
  | .error e => .error e
  | .ok cell =>
    match pyFloat cell with
    | none => .error .valueError
    | some v =>
      if v = -999999 then .ok none
      else if key = "elevation" then
        .ok (some ((elevationOffset - pyIntTrunc (v * 1000) : ℤ) : ℚ))
      else if key = "corrected_depth" then
        .ok (some ((pyIntTrunc (v * 1000) : ℤ) : ℚ))
      else if key = "Rf" then .ok (some (v / 100))
      else .ok (some v)

/-- Lines 96-110 for a single key: the values appended to
measurement_data[key] over all sorted rows.  A key mapped to None indexes
each row with None, a TypeError, observable only when at least one row
exists; an unmapped key appends nothing.  The Python loop is row-major and
appends incrementally; on success the per-key column it builds equals this
column-major form, and each claim settled here exercises at most one error
source, so error identity agrees as well. -/
def seriesFor (off : ℤ) (m : ColMapping) (key : String)
    (rows : List (List (List Char))) : Except PyErr (List (Option ℚ)) :=
  match alookup key m with
  | none => .ok []
  | some none => if rows = [] then .ok [] else .error .typeError
  | some (some i) => exMapM (convertCell off key i) rows

/-- Lines 66-115 of convert_xml_dict_to_cpt_dict: mapping fix-up, row split
and sort, per-key unit conversion, and Rf derivation, producing the
measurement_data series together with the warning message. -/
def convertMeasurementData (off : ℤ) (m0 : ColMapping) (tokenSep blockSep : Char)
    (vals : List Char) : Except PyErr MeasData × Option String :=
  let rows := splitDataRows tokenSep blockSep vals
  let sub := substituteElevation m0
  let m := sub.1
  let res : Except PyErr MeasData :=
    match sortPhase m rows with
    | .error e => .error e
    | .ok sortedRows =>
      match seriesFor off m "Rf" sortedRows with
      | .error e => .error e
      | .ok rf =>
        match seriesFor off m "fs" sortedRows with
        | .error e => .error e
        | .ok fsSeries =>
          match seriesFor off m "qc" sortedRows with
          | .error e => .error e
          | .ok qcSeries =>
            match seriesFor off m "elevation" sortedRows with
            | .error e => .error e
            | .ok elevSeries =>
              match seriesFor off m "corrected_depth" sortedRows with
              | .error e => .error e
              | .ok cdSeries =>
                rfStep ⟨rf, fsSeries, qcSeries, elevSeries, cdSeries⟩
  (res, sub.2)

/-- The same pipeline entered from the parsed (tag, active) parameters list,
through the mapping construction of lines 58-65. -/
def convertFromParams (off : ℤ) (params : List (String × Bool))
    (tokenSep blockSep : Char) (vals : List Char) :
    Except PyErr MeasData × Option String :=
  convertMeasurementData off (buildMapping params) tokenSep blockSep vals

/-- An lxml element as consumed by _parse_xml_to_dict_recursively: tag,
optional text, children. -/
inductive XNode where
  | node : String → Option String → List XNode → XNode

def XNode.tag : XNode → String
  | .node t _ _ => t

def XNode.text : XNode → Option String
  | .node _ tx _ => tx

def XNode.children : XNode → List XNode
  | .node _ _ cs => cs

/-- tag.split on the closing brace, last fragment (lines 208 and 211); when
no brace occurs the whole tag is returned, so the guarded and unguarded
variants in the source coincide. -/
def stripTag (t : String) : String :=
  String.mk ((splitOnChar '\x7d' t.toList).getLastD [])

/-- Result values of _parse_xml_to_dict_recursively: a text leaf, a dict of
children (insertion-ordered, duplicate tags overwrite), or the ordered
(tag, active) list built for a parameters node. -/
inductive PyVal where
  | text : Option String → PyVal
  | dict : List (String × PyVal) → PyVal
  | pairs : List (String × Bool) → PyVal

/-- Membership test sub_child.text in the set containing "ja" and the integer
one (line 211): lxml element text is an optional string, so only the string
"ja" can ever match; the integer branch is unreachable. -/
def isActiveText (tx : Option String) : Bool :=
  tx == some "ja"

/-- Line 210-212: the ordered (stripped tag, active flag) pairs of a
parameters node's children. -/
def paramPairs (c : XNode) : List (String × Bool) :=
  c.children.map (fun sc => (stripTag sc.tag, isActiveText sc.text))

mutual

/-- IMBROFile._parse_xml_to_dict_recursively (classification.py lines
200-215): a childless node yields its text; otherwise the children are folded
into a dict by assignment, with the parameters special case. -/
def parseXmlNode : XNode → PyVal
  | .node _ tx [] => .text tx
  | .node _ _ (c :: cs) => .dict (parseChildrenFrom [] (c :: cs))

/-- The loop of lines 206-214, with the dict built so far as accumulator. -/
def parseChildrenFrom : List (String × PyVal) → List XNode → List (String × PyVal)
  | m, [] => m
  | m, c :: cs =>
    if stripTag c.tag = "parameters" then
      parseChildrenFrom (upsert m "parameters" (.pairs (paramPairs c))) cs
    else
      parseChildrenFrom (upsert m (stripTag c.tag) (parseXmlNode c)) cs

end

/-- The dict value the loop of lines 206-214 stores for one child. -/
def childValue (c : XNode) : PyVal :=
  if stripTag c.tag = "parameters" then .pairs (paramPairs c) else parseXmlNode c

/-- Modelled from the spec (section 4.5): the viktor.geo SDK implementation of
SoilLayout.filter_layers_on_thickness called at classification.py lines
361-365 is not part of this repository.  A layer is its assigned material and
its thickness (bottom minus top); contiguous layers make the layout a plain
list. -/
structure SpecLayer where
  soil : Nat
  thickness : Nat
deriving DecidableEq, Repr

/-- Modelled from the spec: one merge step of the thickness filter.  Find the
first layer thinner than the threshold and merge it into the thicker of its
two neighbours (the only neighbour at a boundary); none when no layer is
sub-threshold or at most one layer remains. -/
def mergeFirstThin (t : Nat) : List SpecLayer → Option (List SpecLayer)
  | [] => none
  | [_] => none
  | [a, b] =>
    if a.thickness < t then some [⟨b.soil, a.thickness + b.thickness⟩]
    else if b.thickness < t then some [⟨a.soil, a.thickness + b.thickness⟩]
    else none
  | a :: b :: c :: rest =>
    if a.thickness < t then some (⟨b.soil, a.thickness + b.thickness⟩ :: c :: rest)
    else if b.thickness < t then
      if a.thickness < c.thickness then
        some (a :: ⟨c.soil, b.thickness + c.thickness⟩ :: rest)
      else some (⟨a.soil, a.thickness + b.thickness⟩ :: c :: rest)
    else
      match mergeFirstThin t (b :: c :: rest) with
      | none => none
      | some rest' => some (a :: rest')

/-- Modelled from the spec: repeat the merge step until no layer is
sub-threshold; each step shortens the list by one, so the list length is
enough fuel. -/
def filterThinFuel (t : Nat) : Nat → List SpecLayer → List SpecLayer
  | 0, ls => ls
  | fuel + 1, ls =>
    match mergeFirstThin t ls with
    | none => ls
    | some ls' => filterThinFuel t fuel ls'

/-- Modelled from the spec: the thickness filter proper. -/
def filterThin (t : Nat) (ls : List SpecLayer) : List SpecLayer :=
  filterThinFuel t ls.length ls

/-- Modelled from the spec: merge every pair of directly adjacent layers
sharing the same material, regardless of thickness. -/
def mergeSameSoil : List SpecLayer → List SpecLayer
  | [] => []
  | [a] => [a]
  | a :: b :: rest =>
    if a.soil = b.soil then mergeSameSoil (⟨a.soil, a.thickness + b.thickness⟩ :: rest)
    else a :: mergeSameSoil (b :: rest)
termination_by ls => ls.length

/-- Modelled from the spec: filter_layers_on_thickness with
merge_adjacent_same_soil_layers=True, as invoked at lines 362-365 -- the
thickness filter run to completion, then the same-soil merge. -/
def filter_layers_on_thickness (t : Nat) (ls : List SpecLayer) : List SpecLayer :=
  mergeSameSoil (filterThin t ls)

/-- One serialized layer of a SoilLayout as consumed by the unit converters
(lines 246-261): the bounds plus the rest of the layer payload, which the
converters pass through untouched. -/
structure SerLayer where
  soil : Nat
  top_of_layer : ℚ
  bottom_of_layer : ℚ
deriving DecidableEq, Repr

/-- The serialized SoilLayout the converters rebuild from. -/
structure MSoilLayout where
  layers : List SerLayer
deriving DecidableEq, Repr

/-- convert_soil_layout_from_mm_to_m (lines 246-252): serialize, divide each
layer's bounds by 1000, deserialize. -/
def convert_soil_layout_from_mm_to_m (L : MSoilLayout) : MSoilLayout :=
  ⟨L.layers.map (fun l =>
    { l with
      top_of_layer := l.top_of_layer / 1000
      bottom_of_layer := l.bottom_of_layer / 1000 })⟩

/-- convert_soil_layout_from_m_to_mm (lines 255-261): serialize, multiply each
layer's bounds by 1000, deserialize. -/
def convert_soil_layout_from_m_to_mm (L : MSoilLayout) : MSoilLayout :=
  ⟨L.layers.map (fun l =>
    { l with
      top_of_layer := l.top_of_layer * 1000
      bottom_of_layer := l.bottom_of_layer * 1000 })⟩

/-- A classification-table color as stored: already a Color object, a plain
string, or an RGB tuple. -/
inductive ColorVal where
  | color : Int → Int → Int → ColorVal
  | str : List Char → ColorVal
  | tup : Int → Int → Int → ColorVal
deriving DecidableEq, Repr

/-- One classification-table row: the color plus the remaining fields, which
the color normalization passes through untouched. -/
structure TableRow where
  payload : Nat
  color : ColorVal
deriving DecidableEq, Repr

/-- convert_to_color (lines 290-294): a tuple becomes a Color directly; a
string is stripped, split on commas, each piece parsed with int() (ValueError
on a malformed piece), and Color(*parts) applied (TypeError unless exactly
three parts); a Color argument would reach str.strip on a non-string, an
AttributeError. -/
def convert_to_color : ColorVal → Except PyErr ColorVal
  | .tup r g b => .ok (.color r g b)
  | .str s =>
    match oMapM pyInt (splitOnChar ',' (pyStrip s)) with
    | none => .error .valueError
    | some [r, g, b] => .ok (.color r g b)
    | some _ => .error .typeError
  | .color _ _ _ => .error .attributeError

/-- _update_color_string (lines 282-287): each row whose color is not already
a Color is converted in place; the same list object is returned. -/
def update_color_string (rows : List TableRow) : Except PyErr (List TableRow) :=
  exMapM (fun r =>
    match r.color with
    | .color rr gg bb => .ok { r with color := .color rr gg bb }
    | c =>
      match convert_to_color c with
      | .error e => .error e
      | .ok c' => .ok { r with color := c' }) rows

/-- Classification.table (lines 317-320): returns
_update_color_string(self._table).  The stored list is mutated in place and
also returned, so the embedding yields the new stored table together with the
access result -- the same value. -/
def classificationTable (st : List TableRow) :
    Except PyErr (List TableRow × List TableRow) :=
  match update_color_string st with
  | .error e => .error e
  | .ok r => .ok (r, r)

/-- The attributes of the parsed CPTData object consulted by get_water_level:
hasattr(obj, "water_level") is modelled by the option being some, and
ground_level_wrt_reference is the milli-metric header value. -/
structure CptDataObj where
  water_level : Option ℚ
  ground_level_wrt_reference : ℚ
deriving DecidableEq, Repr

/-- get_water_level (classification.py lines 297-304). -/
def get_water_level (o : CptDataObj) : ℚ :=
  match o.water_level with
  | some w => w
  | none => o.ground_level_wrt_reference / 1000 - 1

/-- The ground-water-level selection of Classification.classify_cpt_file
(lines 347-351): the saved level when one is supplied (is not None), else
get_water_level of the parsed record. -/
def selectGroundWaterLevel (saved : Option ℚ) (o : CptDataObj) : ℚ :=
  match saved with
  | some s => s
  | none => get_water_level o

/-- The last child among cs whose stripped tag equals tag:
specification-side description of the dict overwrite semantics of the
recursive XML walk. -/
def lastTagged (cs : List XNode) (tag : String) : Option XNode :=
  (cs.filter (fun c => stripTag c.tag = tag)).getLast?

/-- A table row the color normalization can process: already a Color, a
tuple, or a string that strips and splits into exactly three int() pieces. -/
def rowColorOk (r : TableRow) : Bool :=
  match r.color with
  | .color _ _ _ => true
  | .tup _ _ _ => true
  | .str s =>
    match oMapM pyInt (splitOnChar ',' (pyStrip s)) with
    | some [_, _, _] => true
    | _ => false

/-- The normalized form of one table row: the in-place update the table
accessor performs on it. -/
def normRow (r : TableRow) : TableRow :=
  match r.color with
  | .color _ _ _ => r
  | c =>
    match convert_to_color c with
    | .ok c' => { r with color := c' }
    | .error _ => r

/-- C10: classify_cpt_file uses the externally supplied groundwater level
whenever one is given; otherwise the record's registered water level when it
exposes one; otherwise the ground level in metres minus 1
(ground_level_wrt_reference / 1000 - 1). -/
theorem c10_ground_water_level_selection (saved : Option ℚ) (o : CptDataObj) :
    (∀ s, saved = some s → selectGroundWaterLevel saved o = s) ∧
    (saved = none → ∀ w, o.water_level = some w →
      selectGroundWaterLevel saved o = w) ∧
    (saved = none → o.water_level = none →
      selectGroundWaterLevel saved o = o.ground_level_wrt_reference / 1000 - 1) := by
  refine ⟨?_, ?_, ?_⟩
  · intro s hs
    simp [selectGroundWaterLevel, hs]
  · intro hs w hw
    simp [selectGroundWaterLevel, hs, get_water_level, hw]
  · intro hs hw
    simp [selectGroundWaterLevel, hs, get_water_level, hw]

/-- C10 witness: the three selection cases at concrete levels. -/
theorem c10_ground_water_level_selection_witness :
    selectGroundWaterLevel (some 2) ⟨some 3, 5000⟩ = 2 ∧
    selectGroundWaterLevel none ⟨some 3, 5000⟩ = 3 ∧
    selectGroundWaterLevel none ⟨none, 5000⟩ = (5000 : ℚ) / 1000 - 1 :=
  ⟨(c10_ground_water_level_selection (some 2) ⟨some 3, 5000⟩).1 2 rfl,
   (c10_ground_water_level_selection none ⟨some 3, 5000⟩).2.1 rfl 3 rfl,
   (c10_ground_water_level_selection none ⟨none, 5000⟩).2.2 rfl rfl⟩

/-- C6: unit conversion round-trips exactly: for a layout with integer
milli-metric bounds, to_metric (to_milli (to_metric L)) = to_metric L. -/
theorem c6_unit_conversion_round_trip (L : MSoilLayout)
    (h : ∀ l ∈ L.layers, (∃ a : ℤ, l.top_of_layer = a) ∧
      (∃ b : ℤ, l.bottom_of_layer = b)) :
    convert_soil_layout_from_mm_to_m (convert_soil_layout_from_m_to_mm
      (convert_soil_layout_from_mm_to_m L)) =
      convert_soil_layout_from_mm_to_m L := by
  clear h
  simp only [convert_soil_layout_from_mm_to_m, convert_soil_layout_from_m_to_mm,
    List.map_map, MSoilLayout.mk.injEq]
  apply List.map_congr_left
  intro l _
  simp only [Function.comp_apply, SerLayer.mk.injEq]
  refine ⟨trivial, ?_, ?_⟩ <;> ring

/-- C6 witness: a one-layer layout with integer milli-metric bounds. -/
theorem c6_unit_conversion_round_trip_witness :
    (∀ l ∈ (MSoilLayout.mk [⟨7, 2, 3⟩]).layers,
      (∃ a : ℤ, l.top_of_layer = a) ∧ (∃ b : ℤ, l.bottom_of_layer = b)) ∧
    convert_soil_layout_from_mm_to_m (convert_soil_layout_from_m_to_mm
      (convert_soil_layout_from_mm_to_m (MSoilLayout.mk [⟨7, 2, 3⟩]))) =
      convert_soil_layout_from_mm_to_m (MSoilLayout.mk [⟨7, 2, 3⟩]) :=
  ⟨by intro l hl; simp at hl; subst hl; exact ⟨⟨2, by norm_num⟩, ⟨3, by norm_num⟩⟩,
   c6_unit_conversion_round_trip (MSoilLayout.mk [⟨7, 2, 3⟩])
     (by intro l hl; simp at hl; subst hl;
         exact ⟨⟨2, by norm_num⟩, ⟨3, by norm_num⟩⟩)⟩

/-- Helper for C3: an error escaping one cell of the Rf comprehension is
always a TypeError (a None operand), never a ZeroDivisionError, because the
qc != 0 guard excludes a zero divisor. -/
theorem rfCell_error_eq (q f : Option ℚ) (e : PyErr)
    (h : rfCell q f = .error e) : e = .typeError := by
  cases q with
  | none =>
    cases f with
    | none =>
      simp [rfCell, pyNeZero, pyDiv, Except.map] at h
      exact h.symm
    | some fv =>
      simp [rfCell, pyNeZero, pyDiv, Except.map] at h
      exact h.symm
  | some qv =>
    by_cases hq : qv = 0
    · simp [rfCell, pyNeZero, hq] at h
    · cases f with
      | none =>
        simp [rfCell, pyNeZero, hq, pyDiv, Except.map] at h
        exact h.symm
      | some fv =>
        simp [rfCell, pyNeZero, hq, pyDiv, Except.map] at h

/-- Helper for C3: deriveRf never surfaces a ZeroDivisionError. -/
theorem deriveRf_error_eq :
    ∀ (qs fs : List (Option ℚ)) (e : PyErr),
      deriveRf qs fs = .error e → e = .typeError
  | [], fs, e => by simp [deriveRf]
  | q :: qs, [], e => by simp [deriveRf]
  | q :: qs, f :: fs, e => by
    intro h
    unfold deriveRf at h
    cases hc : rfCell q f with
    | error e' =>
      rw [hc] at h
      cases h
      exact rfCell_error_eq q f e hc
    | ok r =>
      rw [hc] at h
      cases hr : deriveRf qs fs with
      | error e' =>
        rw [hr] at h
        cases h
        exact deriveRf_error_eq qs fs e hr
      | ok rest => rw [hr] at h; cases h

/-- Helper for C3: on None-free series the derivation succeeds and follows
the fs/qc rule row by row. -/
theorem deriveRf_ok_of_some :
    ∀ (qs fs : List (Option ℚ)), (∀ x ∈ qs, x.isSome) → (∀ x ∈ fs, x.isSome) →
      ∃ rs, deriveRf qs fs = .ok rs ∧ rs.length = min qs.length fs.length ∧
        ∀ i q f, qs.get? i = some (some q) → fs.get? i = some (some f) →
          rs.get? i = some (if q = 0 then none else some (f / q))
  | [], fs, _, _ => ⟨[], by simp [deriveRf], by simp, by simp⟩
  | q :: qs, [], _, _ => ⟨[], by simp [deriveRf], by simp, by simp⟩
  | q :: qs, f :: fs, hq, hf => by
    obtain ⟨qv, rfl⟩ := Option.isSome_iff_exists.mp (hq q (by simp))
    obtain ⟨fv, rfl⟩ := Option.isSome_iff_exists.mp (hf f (by simp))
    obtain ⟨rs, hrs, hlen, hrow⟩ := deriveRf_ok_of_some qs fs
      (fun x hx => hq x (by simp [hx])) (fun x hx => hf x (by simp [hx]))
    refine ⟨(if qv = 0 then none else some (fv / qv)) :: rs, ?_, ?_, ?_⟩
    · unfold deriveRf
      have hc : rfCell (some qv) (some fv) =
          .ok (if qv = 0 then none else some (fv / qv)) := by
        by_cases hq0 : qv = 0 <;> simp [rfCell, pyNeZero, pyDiv, hq0, Except.map]
      rw [hc, hrs]
    · simp only [List.length_cons]
      omega
    · intro i qq ff hqq hff
      cases i with
      | zero =>
        simp at hqq hff
        subst hqq; subst hff; rfl
      | succ n =>
        simp only [List.get?_cons_succ] at hqq hff ⊢
        exact hrow n qq ff hqq hff

/-- C3: when no friction-ratio column was mapped (the Rf series is empty
before derivation), the normalizer derives Rf per row as fs/qc for rows with
nonzero qc and None for rows with zero qc, and the derivation can never
raise a division error. -/
theorem c3_rf_derivation (md : MeasData) (hRf : md.Rf = []) :
    (∀ e, rfStep md = .error e → e ≠ .zeroDivisionError) ∧
    ((∀ x ∈ md.qc, x.isSome) → (∀ x ∈ md.fs, x.isSome) →
      ∃ md', rfStep md = .ok md' ∧
        md'.fs = md.fs ∧ md'.qc = md.qc ∧ md'.elevation = md.elevation ∧
        md'.corrected_depth = md.corrected_depth ∧
        md'.Rf.length = min md.qc.length md.fs.length ∧
        ∀ i q f, md.qc.get? i = some (some q) → md.fs.get? i = some (some f) →
          md'.Rf.get? i = some (if q = 0 then none else some (f / q))) := by
  constructor
  · intro e he
    unfold rfStep at he
    rw [if_pos hRf] at he
    cases hd : deriveRf md.qc md.fs with
    | error e' =>
      rw [hd] at he
      cases he
      rw [deriveRf_error_eq md.qc md.fs e hd]
      intro hcontra
      cases hcontra
    | ok rs => rw [hd] at he; cases he
  · intro hq hf
    obtain ⟨rs, hrs, hlen, hrow⟩ := deriveRf_ok_of_some md.qc md.fs hq hf
    refine ⟨{ md with Rf := rs }, ?_, rfl, rfl, rfl, rfl, hlen, hrow⟩
    unfold rfStep
    rw [if_pos hRf, hrs]

/-- C3 witness: qc = [2, 0], fs = [1, 3] derives Rf = [1/2, None]. -/
theorem c3_rf_derivation_witness :
    (∀ e, rfStep ⟨[], [some 1, some 3], [some 2, some 0], [], []⟩ = .error e →
      e ≠ .zeroDivisionError) ∧
    (∃ md', rfStep ⟨[], [some 1, some 3], [some 2, some 0], [], []⟩ = .ok md' ∧
      md'.fs = [some 1, some 3] ∧ md'.qc = [some 2, some 0] ∧
      md'.elevation = ([] : List (Option ℚ)) ∧
      md'.corrected_depth = ([] : List (Option ℚ)) ∧
      md'.Rf.length = min 2 2 ∧
      ∀ i q f,
        ([some 2, some 0] : List (Option ℚ)).get? i = some (some q) →
        ([some 1, some 3] : List (Option ℚ)).get? i = some (some f) →
        md'.Rf.get? i = some (if q = 0 then none else some (f / q))) :=
  ⟨(c3_rf_derivation ⟨[], [some 1, some 3], [some 2, some 0], [], []⟩ rfl).1,
   (c3_rf_derivation ⟨[], [some 1, some 3], [some 2, some 0], [], []⟩ rfl).2
     (by simp) (by simp)⟩

/-- Helper: shifting the enumerate counter shifts every collected index. -/
theorem collectBadIdx_shift {α : Type} (P : α → Bool) :
    ∀ (l : List α) (k : Nat),
      collectBadIdx P (k + 1) l = (collectBadIdx P k l).map (· + 1)
  | [], _ => rfl
  | r :: rest, k => by
    simp only [collectBadIdx]
    by_cases h : P r = true
    · rw [if_pos h, if_pos h, List.map_cons, ← collectBadIdx_shift P rest (k + 1)]
    · rw [if_neg h, if_neg h, ← collectBadIdx_shift P rest (k + 1)]

/-- Helper: deleting only at shifted indices leaves the head untouched. -/
theorem foldl_eraseIdx_shift {α : Type} :
    ∀ (T : List Nat) (a : α) (l : List α),
      List.foldl (fun acc i => acc.eraseIdx i) (a :: l) (T.map (· + 1)) =
        a :: List.foldl (fun acc i => acc.eraseIdx i) l T
  | [], _, _ => rfl
  | t :: T, a, l => by
    simp only [List.map_cons, List.foldl_cons, List.eraseIdx_cons_succ]
    exact foldl_eraseIdx_shift T a (l.eraseIdx t)

/-- Helper: deleteRows at shifted indices keeps the head. -/
theorem deleteRows_shift {α : Type} (S : List Nat) (a : α) (l : List α) :
    deleteRows (a :: l) (S.map (· + 1)) = a :: deleteRows l S := by
  unfold deleteRows
  rw [← List.map_reverse]
  exact foldl_eraseIdx_shift S.reverse a l

/-- Helper: deleting index zero and shifted indices drops the head and
performs the unshifted deletions on the tail. -/
theorem deleteRows_zero_shift {α : Type} (S : List Nat) (a : α) (l : List α) :
    deleteRows (a :: l) (0 :: S.map (· + 1)) = deleteRows l S := by
  unfold deleteRows
  rw [List.reverse_cons, List.foldl_append, ← List.map_reverse]
  rw [foldl_eraseIdx_shift S.reverse a l]
  rfl

/-- Helper: the collect-then-delete-descending procedure of
filter_nones_from_params_dict equals the direct row filter. -/
theorem deleteRows_collect {α β : Type} (P : α → Bool) :
    ∀ (rows : List α) (l : List β), rows.length = l.length →
      deleteRows l (collectBadIdx P 0 rows) = dropMarked P rows l
  | [], l, h => by
    cases l with
    | nil => rfl
    | cons b l' => simp at h
  | r :: rows', l, h => by
    cases l with
    | nil => simp at h
    | cons b l' =>
      simp only [List.length_cons, Nat.add_right_cancel_iff] at h
      simp only [collectBadIdx, collectBadIdx_shift P rows' 0, dropMarked]
      by_cases hr : P r = true
      · rw [if_pos hr, if_pos hr, deleteRows_zero_shift]
        exact deleteRows_collect P rows' l' h
      · rw [if_neg hr, if_neg hr, deleteRows_shift]
        rw [deleteRows_collect P rows' l' h]

/-- Helper: the row filter keeps as many entries as the row predicate
admits. -/
theorem dropMarked_length {α β : Type} (P : α → Bool) :
    ∀ (rows : List α) (l : List β), rows.length = l.length →
      (dropMarked P rows l).length = (rows.filter (fun r => !(P r))).length
  | [], l, _ => by simp [dropMarked]
  | r :: rows', l, h => by
    cases l with
    | nil => simp at h
    | cons b l' =>
      simp only [List.length_cons, Nat.add_right_cancel_iff] at h
      cases hP : P r with
      | true =>
        simp [dropMarked, hP, List.filter_cons, dropMarked_length P rows' l' h]
      | false =>
        simp [dropMarked, hP, List.filter_cons, dropMarked_length P rows' l' h]

/-- Helper: zip5 of five equal-length lists has that common length. -/
theorem zip5_length {α : Type} :
    ∀ (as bs cs ds es : List α) (N : Nat),
      as.length = N → bs.length = N → cs.length = N → ds.length = N →
      es.length = N → (zip5 as bs cs ds es).length = N
  | [], bs, cs, ds, es, N, h1, _, _, _, _ => by
    simp at h1
    subst h1
    rfl
  | a :: as', bs, cs, ds, es, N, h1, h2, h3, h4, h5 => by
    cases bs with
    | nil => simp at h1 h2; omega
    | cons b bs' =>
      cases cs with
      | nil => simp at h1 h3; omega
      | cons c cs' =>
        cases ds with
        | nil => simp at h1 h4; omega
        | cons dd ds' =>
          cases es with
          | nil => simp at h1 h5; omega
          | cons e es' =>
            cases N with
            | zero => simp at h1
            | succ n =>
              simp only [List.length_cons, Nat.add_right_cancel_iff] at h1 h2 h3 h4 h5
              simp only [zip5, List.length_cons]
              rw [zip5_length as' bs' cs' ds' es' n h1 h2 h3 h4 h5]

/-- Helper: applying the row filter to each of five aligned series and
re-zipping equals filtering the zipped rows. -/
theorem zip5_dropMarked {α : Type} (P : (α × α × α × α × α) → Bool) :
    ∀ (as bs cs ds es : List α) (N : Nat),
      as.length = N → bs.length = N → cs.length = N → ds.length = N →
      es.length = N →
      zip5 (dropMarked P (zip5 as bs cs ds es) as)
           (dropMarked P (zip5 as bs cs ds es) bs)
           (dropMarked P (zip5 as bs cs ds es) cs)
           (dropMarked P (zip5 as bs cs ds es) ds)
           (dropMarked P (zip5 as bs cs ds es) es) =
        (zip5 as bs cs ds es).filter (fun r => !(P r))
  | [], bs, cs, ds, es, N, h1, _, _, _, _ => by
    simp at h1
    subst h1
    simp [zip5, dropMarked]
  | a :: as', bs, cs, ds, es, N, h1, h2, h3, h4, h5 => by
    cases bs with
    | nil => simp at h1 h2; omega
    | cons b bs' =>
      cases cs with
      | nil => simp at h1 h3; omega
      | cons c cs' =>
        cases ds with
        | nil => simp at h1 h4; omega
        | cons dd ds' =>
          cases es with
          | nil => simp at h1 h5; omega
          | cons e es' =>
            cases N with
            | zero => simp at h1
            | succ n =>
              simp only [List.length_cons, Nat.add_right_cancel_iff] at h1 h2 h3 h4 h5
              cases hP : P (a, b, c, dd, e) with
              | true =>
                simp only [zip5, dropMarked, List.filter_cons, hP, Bool.not_true]
                simp only [Bool.false_eq_true, if_false, if_true]
                exact zip5_dropMarked P as' bs' cs' ds' es' n h1 h2 h3 h4 h5
              | false =>
                simp only [zip5, dropMarked, List.filter_cons, hP, Bool.not_false]
                simp only [Bool.false_eq_true, if_false, if_true, zip5]
                rw [zip5_dropMarked P as' bs' cs' ds' es' n h1 h2 h3 h4 h5]

/-- Helper: the post-deletion series equal the direct row filter of each
series. -/
theorem filter_nones_series (d : MeasData) (N : Nat)
    (h1 : d.Rf.length = N) (h2 : d.fs.length = N) (h3 : d.qc.length = N)
    (h4 : d.elevation.length = N) (h5 : d.corrected_depth.length = N) :
    (filter_nones_from_params_dict d).2.Rf =
        dropMarked hasNoneRow (measRows d) d.Rf ∧
    (filter_nones_from_params_dict d).2.fs =
        dropMarked hasNoneRow (measRows d) d.fs ∧
    (filter_nones_from_params_dict d).2.qc =
        dropMarked hasNoneRow (measRows d) d.qc ∧
    (filter_nones_from_params_dict d).2.elevation =
        dropMarked hasNoneRow (measRows d) d.elevation ∧
    (filter_nones_from_params_dict d).2.corrected_depth =
        dropMarked hasNoneRow (measRows d) d.corrected_depth := by
  have hrows : (measRows d).length = N :=
    zip5_length d.Rf d.fs d.qc d.elevation d.corrected_depth N h1 h2 h3 h4 h5
  exact ⟨deleteRows_collect hasNoneRow (measRows d) d.Rf (by rw [hrows, h1]),
    deleteRows_collect hasNoneRow (measRows d) d.fs (by rw [hrows, h2]),
    deleteRows_collect hasNoneRow (measRows d) d.qc (by rw [hrows, h3]),
    deleteRows_collect hasNoneRow (measRows d) d.elevation (by rw [hrows, h4]),
    deleteRows_collect hasNoneRow (measRows d) d.corrected_depth (by rw [hrows, h5])⟩

/-- C1: the null-row filtering pass retains exactly the rows in which none of
the five measurement series holds a null, in their original order, and
afterwards all five series are index-aligned with the same length, at most
the input row count N. -/
theorem c1_null_row_filter (d : MeasData) (N : Nat)
    (h1 : d.Rf.length = N) (h2 : d.fs.length = N) (h3 : d.qc.length = N)
    (h4 : d.elevation.length = N) (h5 : d.corrected_depth.length = N) :
    measRows (filter_nones_from_params_dict d).2 =
      (measRows d).filter (fun r => !(hasNoneRow r)) ∧
    (filter_nones_from_params_dict d).2.Rf.length =
      ((measRows d).filter (fun r => !(hasNoneRow r))).length ∧
    (filter_nones_from_params_dict d).2.fs.length =
      ((measRows d).filter (fun r => !(hasNoneRow r))).length ∧
    (filter_nones_from_params_dict d).2.qc.length =
      ((measRows d).filter (fun r => !(hasNoneRow r))).length ∧
    (filter_nones_from_params_dict d).2.elevation.length =
      ((measRows d).filter (fun r => !(hasNoneRow r))).length ∧
    (filter_nones_from_params_dict d).2.corrected_depth.length =
      ((measRows d).filter (fun r => !(hasNoneRow r))).length ∧
    ((measRows d).filter (fun r => !(hasNoneRow r))).length ≤ N := by
  have hrows : (measRows d).length = N :=
    zip5_length d.Rf d.fs d.qc d.elevation d.corrected_depth N h1 h2 h3 h4 h5
  obtain ⟨e1, e2, e3, e4, e5⟩ := filter_nones_series d N h1 h2 h3 h4 h5
  refine ⟨?_, ?_, ?_, ?_, ?_, ?_, ?_⟩
  · show zip5 (filter_nones_from_params_dict d).2.Rf
        (filter_nones_from_params_dict d).2.fs
        (filter_nones_from_params_dict d).2.qc
        (filter_nones_from_params_dict d).2.elevation
        (filter_nones_from_params_dict d).2.corrected_depth = _
    rw [e1, e2, e3, e4, e5]
    exact zip5_dropMarked hasNoneRow d.Rf d.fs d.qc d.elevation d.corrected_depth
      N h1 h2 h3 h4 h5
  · rw [e1]; exact dropMarked_length hasNoneRow (measRows d) d.Rf (by rw [hrows, h1])
  · rw [e2]; exact dropMarked_length hasNoneRow (measRows d) d.fs (by rw [hrows, h2])
  · rw [e3]; exact dropMarked_length hasNoneRow (measRows d) d.qc (by rw [hrows, h3])
  · rw [e4]
    exact dropMarked_length hasNoneRow (measRows d) d.elevation (by rw [hrows, h4])
  · rw [e5]
    exact dropMarked_length hasNoneRow (measRows d) d.corrected_depth
      (by rw [hrows, h5])
  · calc ((measRows d).filter (fun r => !(hasNoneRow r))).length
        ≤ (measRows d).length := List.length_filter_le _ _
    _ = N := hrows

/-- C1 witness: a two-row dict where the first row holds a null. -/
theorem c1_null_row_filter_witness :
    measRows (filter_nones_from_params_dict
      ⟨[none, some 1], [some 1, some 2], [some 1, some 3], [some 1, some 4],
       [some 1, some 5]⟩).2 =
      (measRows ⟨[none, some 1], [some 1, some 2], [some 1, some 3],
        [some 1, some 4], [some 1, some 5]⟩).filter (fun r => !(hasNoneRow r)) ∧
    (filter_nones_from_params_dict
      ⟨[none, some 1], [some 1, some 2], [some 1, some 3], [some 1, some 4],
       [some 1, some 5]⟩).2.Rf.length =
      ((measRows ⟨[none, some 1], [some 1, some 2], [some 1, some 3],
        [some 1, some 4], [some 1, some 5]⟩).filter
          (fun r => !(hasNoneRow r))).length ∧
    (filter_nones_from_params_dict
      ⟨[none, some 1], [some 1, some 2], [some 1, some 3], [some 1, some 4],
       [some 1, some 5]⟩).2.fs.length =
      ((measRows ⟨[none, some 1], [some 1, some 2], [some 1, some 3],
        [some 1, some 4], [some 1, some 5]⟩).filter
          (fun r => !(hasNoneRow r))).length ∧
    (filter_nones_from_params_dict
      ⟨[none, some 1], [some 1, some 2], [some 1, some 3], [some 1, some 4],
       [some 1, some 5]⟩).2.qc.length =
      ((measRows ⟨[none, some 1], [some 1, some 2], [some 1, some 3],
        [some 1, some 4], [some 1, some 5]⟩).filter
          (fun r => !(hasNoneRow r))).length ∧
    (filter_nones_from_params_dict
      ⟨[none, some 1], [some 1, some 2], [some 1, some 3], [some 1, some 4],
       [some 1, some 5]⟩).2.elevation.length =
      ((measRows ⟨[none, some 1], [some 1, some 2], [some 1, some 3],
        [some 1, some 4], [some 1, some 5]⟩).filter
          (fun r => !(hasNoneRow r))).length ∧
    (filter_nones_from_params_dict
      ⟨[none, some 1], [some 1, some 2], [some 1, some 3], [some 1, some 4],
       [some 1, some 5]⟩).2.corrected_depth.length =
      ((measRows ⟨[none, some 1], [some 1, some 2], [some 1, some 3],
        [some 1, some 4], [some 1, some 5]⟩).filter
          (fun r => !(hasNoneRow r))).length ∧
    ((measRows ⟨[none, some 1], [some 1, some 2], [some 1, some 3],
      [some 1, some 4], [some 1, some 5]⟩).filter
        (fun r => !(hasNoneRow r))).length ≤ 2 :=
  c1_null_row_filter
    ⟨[none, some 1], [some 1, some 2], [some 1, some 3], [some 1, some 4],
     [some 1, some 5]⟩ 2 rfl rfl rfl rfl rfl

/-- Helper for C7: removing a present element strictly shortens a filter. -/
theorem filter_length_lt_of_mem {α : Type} :
    ∀ {l : List α} {a : α} {p : α → Bool}, a ∈ l → p a = false →
      (l.filter p).length < l.length
  | [], a, p, ha, _ => by cases ha
  | b :: l', a, p, ha, hpa => by
    rcases List.mem_cons.mp ha with rfl | ha'
    · rw [List.filter_cons, hpa]
      simp only [Bool.false_eq_true, if_neg (by simp : ¬(false = true))]
      calc (List.filter p l').length ≤ l'.length := List.length_filter_le _ _
        _ < (a :: l').length := by simp
    · rw [List.filter_cons]
      by_cases hb : p b = true
      · simp only [if_pos hb, List.length_cons]
        have := filter_length_lt_of_mem ha' hpa
        omega
      · simp only [if_neg hb]
        calc (List.filter p l').length ≤ l'.length := List.length_filter_le _ _
          _ < (b :: l').length := by simp

/-- C7 counterexample: filter_nones_from_params_dict is not pure in its
argument: on a dict with one null row, the argument's post-state differs
from its pre-state. -/
theorem c7_counterexample :
    (filter_nones_from_params_dict
      ⟨[none], [some 1], [some 1], [some 1], [some 1]⟩).1 ≠
      ⟨[none], [some 1], [some 1], [some 1], [some 1]⟩ := by
  intro h
  have hRf := congrArg MeasData.Rf h
  simp [filter_nones_from_params_dict, measRows, zip5, hasNoneRow,
    collectBadIdx, deleteRows, List.eraseIdx] at hRf

/-- C7 (amended): the null-row drop pass deletes rows from the measurement
series it was given in place and returns that same mutated value; whenever a
null row is present the pre-filter series is not preserved. -/
theorem c7_inplace_filter (d : MeasData) (N : Nat)
    (h1 : d.Rf.length = N) (h2 : d.fs.length = N) (h3 : d.qc.length = N)
    (h4 : d.elevation.length = N) (h5 : d.corrected_depth.length = N)
    (hbad : ∃ r ∈ measRows d, hasNoneRow r = true) :
    (filter_nones_from_params_dict d).1 = (filter_nones_from_params_dict d).2 ∧
    (filter_nones_from_params_dict d).1 ≠ d := by
  refine ⟨rfl, ?_⟩
  intro hEq
  obtain ⟨r, hr, hbr⟩ := hbad
  obtain ⟨e1, _, _, _, _⟩ := filter_nones_series d N h1 h2 h3 h4 h5
  have hrows : (measRows d).length = N :=
    zip5_length d.Rf d.fs d.qc d.elevation d.corrected_depth N h1 h2 h3 h4 h5
  have hlen : (filter_nones_from_params_dict d).1.Rf.length <
      d.Rf.length := by
    show (filter_nones_from_params_dict d).2.Rf.length < d.Rf.length
    rw [e1, dropMarked_length hasNoneRow (measRows d) d.Rf (by rw [hrows, h1]),
      h1, ← hrows]
    exact filter_length_lt_of_mem hr (by simp [hbr])
  rw [hEq] at hlen
  omega

/-- C7 witness for the amended claim: the concrete one-null-row dict. -/
theorem c7_inplace_filter_witness :
    (filter_nones_from_params_dict
      ⟨[none], [some 1], [some 1], [some 1], [some 1]⟩).1 =
    (filter_nones_from_params_dict
      ⟨[none], [some 1], [some 1], [some 1], [some 1]⟩).2 ∧
    (filter_nones_from_params_dict
      ⟨[none], [some 1], [some 1], [some 1], [some 1]⟩).1 ≠
      ⟨[none], [some 1], [some 1], [some 1], [some 1]⟩ :=
  c7_inplace_filter ⟨[none], [some 1], [some 1], [some 1], [some 1]⟩ 1
    rfl rfl rfl rfl rfl
    ⟨(none, some 1, some 1, some 1, some 1), by simp [measRows, zip5], rfl⟩

/-- Helper for C5: no merge step fires on a list of all-thick layers. -/
theorem mergeFirstThin_none_of_thick {t : Nat} :
    ∀ {ls : List SpecLayer}, (∀ l ∈ ls, t ≤ l.thickness) →
      mergeFirstThin t ls = none
  | [], _ => rfl
  | [a], _ => rfl
  | [a, b], h => by
    have ha := h a (by simp)
    have hb := h b (by simp)
    simp [mergeFirstThin, Nat.not_lt.mpr ha, Nat.not_lt.mpr hb]
  | a :: b :: c :: rest, h => by
    have ha := h a (by simp)
    have hb := h b (by simp)
    have ih := mergeFirstThin_none_of_thick
      (fun l hl => h l (List.mem_cons_of_mem a hl))
    simp [mergeFirstThin, Nat.not_lt.mpr ha, Nat.not_lt.mpr hb, ih]

/-- Helper for C5: no merge step fires once at most one layer remains. -/
theorem mergeFirstThin_none_short {t : Nat} {ls : List SpecLayer}
    (h : ls.length ≤ 1) : mergeFirstThin t ls = none := by
  cases ls with
  | nil => rfl
  | cons a rest =>
    cases rest with
    | nil => rfl
    | cons b rest' => simp at h

/-- Helper for C5: a successful merge step removes exactly one layer. -/
theorem mergeFirstThin_some_length {t : Nat} :
    ∀ {ls ls' : List SpecLayer}, mergeFirstThin t ls = some ls' →
      ls'.length + 1 = ls.length
  | [], _, h => by simp [mergeFirstThin] at h
  | [a], _, h => by simp [mergeFirstThin] at h
  | [a, b], ls', h => by
    by_cases h1 : a.thickness < t
    · simp [mergeFirstThin, h1] at h
      subst h
      simp
    · by_cases h2 : b.thickness < t
      · simp [mergeFirstThin, h1, h2] at h
        subst h
        simp
      · simp [mergeFirstThin, h1, h2] at h
  | a :: b :: c :: rest, ls', h => by
    by_cases h1 : a.thickness < t
    · simp [mergeFirstThin, h1] at h
      subst h
      simp
    · by_cases h2 : b.thickness < t
      · by_cases h3 : a.thickness < c.thickness
        · simp [mergeFirstThin, h1, h2, h3] at h
          subst h
          simp
        · simp [mergeFirstThin, h1, h2, h3] at h
          subst h
          simp
      · simp only [mergeFirstThin, if_neg h1, if_neg h2] at h
        cases hm : mergeFirstThin t (b :: c :: rest) with
        | none => rw [hm] at h; cases h
        | some r =>
          rw [hm] at h
          cases h
          have := mergeFirstThin_some_length hm
          simp only [List.length_cons] at this ⊢
          omega

/-- Helper for C5: with fuel at least the length, the fuel loop reaches a
fixpoint of the merge step. -/
theorem filterThinFuel_fix {t : Nat} :
    ∀ (fuel : Nat) (ls : List SpecLayer), ls.length ≤ fuel →
      mergeFirstThin t (filterThinFuel t fuel ls) = none
  | 0, ls, h => by
    have hnil : ls = [] := List.length_eq_zero.mp (Nat.le_zero.mp h)
    subst hnil
    rfl
  | fuel + 1, ls, h => by
    cases hm : mergeFirstThin t ls with
    | none =>
      simp only [filterThinFuel, hm]
    | some ls' =>
      have hlen := mergeFirstThin_some_length hm
      simp only [filterThinFuel, hm]
      exact filterThinFuel_fix fuel ls' (by omega)

/-- Helper for C5: the thickness filter always ends at a merge fixpoint. -/
theorem mergeFirstThin_filterThin (t : Nat) (ls : List SpecLayer) :
    mergeFirstThin t (filterThin t ls) = none :=
  filterThinFuel_fix ls.length ls (Nat.le_refl _)

/-- Helper for C5: at a merge fixpoint the thickness filter is the
identity. -/
theorem filterThin_of_none {t : Nat} {ls : List SpecLayer}
    (h : mergeFirstThin t ls = none) : filterThin t ls = ls := by
  unfold filterThin
  cases hl : ls.length with
  | zero => rfl
  | succ n => simp [filterThinFuel, h]

/-- Helper for C5: a merge fixpoint is all-thick or has at most one layer. -/
theorem thick_or_short_of_none {t : Nat} :
    ∀ {ls : List SpecLayer}, mergeFirstThin t ls = none →
      (∀ l ∈ ls, t ≤ l.thickness) ∨ ls.length ≤ 1
  | [], _ => Or.inr (by simp)
  | [a], _ => Or.inr (by simp)
  | [a, b], h => by
    by_cases h1 : a.thickness < t
    · simp [mergeFirstThin, h1] at h
    · by_cases h2 : b.thickness < t
      · simp [mergeFirstThin, h1, h2] at h
      · left
        intro l hl
        rcases List.mem_cons.mp hl with rfl | hl'
        · omega
        · simp at hl'
          subst hl'
          omega
  | a :: b :: c :: rest, h => by
    by_cases h1 : a.thickness < t
    · simp [mergeFirstThin, h1] at h
    · by_cases h2 : b.thickness < t
      · by_cases h3 : a.thickness < c.thickness <;>
          simp [mergeFirstThin, h1, h2, h3] at h
      · simp only [mergeFirstThin, if_neg h1, if_neg h2] at h
        cases hm : mergeFirstThin t (b :: c :: rest) with
        | some r => rw [hm] at h; cases h
        | none =>
          rcases thick_or_short_of_none hm with hall | hshort
          · left
            intro l hl
            rcases List.mem_cons.mp hl with rfl | hl'
            · omega
            · exact hall l hl'
          · simp only [List.length_cons] at hshort
            omega

/-- Helper for C5: the same-soil merge keeps every layer at or above any
thickness bound satisfied by the input layers. -/
theorem mergeSameSoil_thick {t : Nat} :
    ∀ (ls : List SpecLayer), (∀ l ∈ ls, t ≤ l.thickness) →
      ∀ l ∈ mergeSameSoil ls, t ≤ l.thickness
  | [], _, l, hl => by simp [mergeSameSoil] at hl
  | [a], h, l, hl => by
    simp [mergeSameSoil] at hl
    subst hl
    exact h l (by simp)
  | a :: b :: rest, h, l, hl => by
    by_cases hs : a.soil = b.soil
    · simp only [mergeSameSoil, if_pos hs] at hl
      refine mergeSameSoil_thick (⟨a.soil, a.thickness + b.thickness⟩ :: rest) ?_ l hl
      intro l' hl'
      rcases List.mem_cons.mp hl' with rfl | hl''
      · have ha := h a (by simp)
        simp only
        omega
      · exact h l' (by simp [hl''])
    · simp only [mergeSameSoil, if_neg hs] at hl
      rcases List.mem_cons.mp hl with rfl | hl'
      · exact h l (by simp)
      · refine mergeSameSoil_thick (b :: rest) ?_ l hl'
        intro l' hl''
        exact h l' (List.mem_cons_of_mem a hl'')
termination_by ls => ls.length

/-- Helper for C5: the same-soil merge is the identity on lists of at most
one layer. -/
theorem mergeSameSoil_short {ls : List SpecLayer} (h : ls.length ≤ 1) :
    mergeSameSoil ls = ls := by
  cases ls with
  | nil => simp [mergeSameSoil]
  | cons a rest =>
    cases rest with
    | nil => simp [mergeSameSoil]
    | cons b rest' => simp at h

/-- Helper for C5: the same-soil merge of a nonempty list is nonempty and its
head carries the head's soil. -/
theorem mergeSameSoil_head :
    ∀ (a : SpecLayer) (rest : List SpecLayer),
      ∃ w rest', mergeSameSoil (a :: rest) = ⟨a.soil, w⟩ :: rest'
  | a, [] => ⟨a.thickness, [], by simp [mergeSameSoil]⟩
  | a, b :: rest => by
    by_cases hs : a.soil = b.soil
    · obtain ⟨w, r', hw⟩ := mergeSameSoil_head ⟨a.soil, a.thickness + b.thickness⟩ rest
      refine ⟨w, r', ?_⟩
      simp only [mergeSameSoil, if_pos hs]
      exact hw
    · refine ⟨a.thickness, mergeSameSoil (b :: rest), ?_⟩
      simp only [mergeSameSoil, if_neg hs]
termination_by a rest => rest.length

/-- Helper for C5: the same-soil merge leaves no two adjacent layers with
equal soil. -/
theorem mergeSameSoil_chain :
    ∀ (ls : List SpecLayer),
      List.Chain' (fun x y => x.soil ≠ y.soil) (mergeSameSoil ls)
  | [] => by simp [mergeSameSoil]
  | [a] => by simp [mergeSameSoil]
  | a :: b :: rest => by
    by_cases hs : a.soil = b.soil
    · simp only [mergeSameSoil, if_pos hs]
      exact mergeSameSoil_chain (⟨a.soil, a.thickness + b.thickness⟩ :: rest)
    · simp only [mergeSameSoil, if_neg hs]
      rw [List.chain'_cons']
      constructor
      · intro y hy
        obtain ⟨w, r', hw⟩ := mergeSameSoil_head b rest
        rw [hw] at hy
        simp at hy
        subst hy
        simpa using hs
      · exact mergeSameSoil_chain (b :: rest)
termination_by ls => ls.length

/-- Helper for C5: with no two adjacent layers of equal soil, the same-soil
merge is the identity. -/
theorem mergeSameSoil_of_chain :
    ∀ {ls : List SpecLayer},
      List.Chain' (fun x y => x.soil ≠ y.soil) ls → mergeSameSoil ls = ls
  | [], _ => by simp [mergeSameSoil]
  | [a], _ => by simp [mergeSameSoil]
  | a :: b :: rest, h => by
    have hs : a.soil ≠ b.soil := (List.chain'_cons.mp h).1
    simp only [mergeSameSoil, if_neg hs]
    rw [mergeSameSoil_of_chain (List.chain'_cons.mp h).2]

/-- C5 (modelled from the spec, section 4.5): the thickness filter with
adjacent-same-soil merging is idempotent -- applying
filter_layers_on_thickness to its own output returns the output of a single
application, for every layout and threshold. -/
theorem c5_thickness_filter_idempotent (t : Nat) (ls : List SpecLayer) :
    filter_layers_on_thickness t (filter_layers_on_thickness t ls) =
      filter_layers_on_thickness t ls := by
  unfold filter_layers_on_thickness
  have h0 : mergeFirstThin t (filterThin t ls) = none :=
    mergeFirstThin_filterThin t ls
  have hm : mergeFirstThin t (mergeSameSoil (filterThin t ls)) = none := by
    rcases thick_or_short_of_none h0 with hall | hshort
    · exact mergeFirstThin_none_of_thick
        (mergeSameSoil_thick (filterThin t ls) hall)
    · rw [mergeSameSoil_short hshort]
      exact h0
  rw [filterThin_of_none hm]
  exact mergeSameSoil_of_chain (mergeSameSoil_chain (filterThin t ls))

/-- Helper for C8: looking up the freshly assigned key yields the new
value. -/
theorem alookup_upsert_same {β : Type} :
    ∀ (m : List (String × β)) (k : String) (v : β),
      alookup k (upsert m k v) = some v
  | [], k, v => by simp [upsert, alookup]
  | (k', v') :: rest, k, v => by
    by_cases h : k' = k
    · simp [upsert, h, alookup]
    · simp only [upsert, if_neg h, alookup]
      exact alookup_upsert_same rest k v

/-- Helper for C8: assignment to one key leaves other lookups unchanged. -/
theorem alookup_upsert_other {β : Type} :
    ∀ (m : List (String × β)) (k k' : String) (v : β), k ≠ k' →
      alookup k' (upsert m k v) = alookup k' m
  | [], k, k', v, hne => by simp [upsert, alookup, hne]
  | (k'', v'') :: rest, k, k', v, hne => by
    by_cases h : k'' = k
    · subst h
      simp only [upsert, if_pos rfl, alookup, if_neg hne]
    · simp only [upsert, if_neg h, alookup]
      by_cases h2 : k'' = k'
      · rw [if_pos h2, if_pos h2]
      · rw [if_neg h2, if_neg h2]
        exact alookup_upsert_other rest k k' v hne

/-- Helper for C8: one iteration of the child loop is an upsert at the
child's stripped tag with its stored value, in both branches. -/
theorem parseChildrenFrom_cons (m : List (String × PyVal)) (c : XNode)
    (cs : List XNode) :
    parseChildrenFrom m (c :: cs) =
      parseChildrenFrom (upsert m (stripTag c.tag) (childValue c)) cs := by
  by_cases h : stripTag c.tag = "parameters"
  · simp [parseChildrenFrom, childValue, h]
  · simp [parseChildrenFrom, childValue, h]

/-- Helper for C8: the child-loop dict realizes latest-assignment-wins
lookup, relative to the starting dict. -/
theorem parseChildren_lookup_last :
    ∀ (cs : List XNode) (m : List (String × PyVal)) (tag : String),
      alookup tag (parseChildrenFrom m cs) =
        match lastTagged cs tag with
        | some c => some (childValue c)
        | none => alookup tag m
  | [], m, tag => by simp [parseChildrenFrom, lastTagged]
  | c :: cs, m, tag => by
    rw [parseChildrenFrom_cons, parseChildren_lookup_last cs _ tag]
    by_cases hc : stripTag c.tag = tag
    · cases hl : lastTagged cs tag with
      | some c' =>
        have hl2 : lastTagged (c :: cs) tag = some c' := by
          unfold lastTagged at hl ⊢
          rw [List.filter_cons, if_pos (by simpa using hc)]
          cases hf : cs.filter (fun x => decide (stripTag x.tag = tag)) with
          | nil => rw [hf] at hl; simp at hl
          | cons y ys =>
            rw [hf] at hl
            rw [List.getLast?_cons_cons]
            exact hl
        rw [hl2]
      | none =>
        have hfil : cs.filter (fun x => decide (stripTag x.tag = tag)) = [] := by
          unfold lastTagged at hl
          exact List.getLast?_eq_none_iff.mp hl
        have hl2 : lastTagged (c :: cs) tag = some c := by
          unfold lastTagged
          rw [List.filter_cons, if_pos (by simpa using hc), hfil]
          rfl
        rw [hl2]
        show alookup tag (upsert m (stripTag c.tag) (childValue c)) =
          some (childValue c)
        rw [hc, alookup_upsert_same]
    · cases hl : lastTagged cs tag with
      | some c' =>
        have hl2 : lastTagged (c :: cs) tag = some c' := by
          unfold lastTagged at hl ⊢
          rw [List.filter_cons, if_neg (by simpa using hc)]
          exact hl
        rw [hl2]
      | none =>
        have hl2 : lastTagged (c :: cs) tag = none := by
          unfold lastTagged at hl ⊢
          rw [List.filter_cons, if_neg (by simpa using hc)]
          exact hl
        rw [hl2]
        show alookup tag (upsert m (stripTag c.tag) (childValue c)) =
          alookup tag m
        exact alookup_upsert_other m (stripTag c.tag) tag (childValue c) hc

/-- C8: for a node with children, the recursive XML walk returns the child
dict; lookups in that dict follow overwrite (latest child with the tag wins)
semantics; a parameters-tagged child is stored as the ordered sequence of
(stripped tag, is-active) pairs of its children; and is-active holds exactly
when the child's text is the truthy token "ja" (the literal integer 1 of the
source's membership test can never equal an optional string, so only "ja"
activates). -/
theorem c8_parameters_and_overwrite (t : String) (tx : Option String)
    (cs : List XNode) (hne : cs ≠ []) :
    parseXmlNode (.node t tx cs) = .dict (parseChildrenFrom [] cs) ∧
    (∀ tag, alookup tag (parseChildrenFrom [] cs) =
      (lastTagged cs tag).map childValue) ∧
    (∀ c : XNode, stripTag c.tag = "parameters" →
      childValue c =
        .pairs (c.children.map (fun sc => (stripTag sc.tag, isActiveText sc.text)))) ∧
    (∀ tx' : Option String, isActiveText tx' = true ↔ tx' = some "ja") := by
  refine ⟨?_, ?_, ?_, ?_⟩
  · cases cs with
    | nil => exact absurd rfl hne
    | cons c cs' => simp [parseXmlNode]
  · intro tag
    rw [parseChildren_lookup_last cs [] tag]
    cases lastTagged cs tag with
    | some c => simp
    | none => simp [alookup]
  · intro c hc
    simp [childValue, hc, paramPairs]
  · intro tx'
    cases tx' with
    | none => simp [isActiveText]
    | some s => simp [isActiveText]

/-- C8 witness: a node with a parameters child, and two children sharing the
tag x where the later one wins the dict slot. -/
theorem c8_parameters_and_overwrite_witness :
    parseXmlNode (.node "root" none
      [.node "ns\x7dparameters" none
        [.node "p1" (some "ja") [], .node "p2" (some "nee") []],
       .node "x" (some "v") [], .node "x" (some "w") []]) =
      .dict (parseChildrenFrom []
        [.node "ns\x7dparameters" none
          [.node "p1" (some "ja") [], .node "p2" (some "nee") []],
         .node "x" (some "v") [], .node "x" (some "w") []]) ∧
    alookup "x" (parseChildrenFrom []
      [.node "ns\x7dparameters" none
        [.node "p1" (some "ja") [], .node "p2" (some "nee") []],
       .node "x" (some "v") [], .node "x" (some "w") []]) =
      some (.text (some "w")) ∧
    alookup "parameters" (parseChildrenFrom []
      [.node "ns\x7dparameters" none
        [.node "p1" (some "ja") [], .node "p2" (some "nee") []],
       .node "x" (some "v") [], .node "x" (some "w") []]) =
      some (.pairs [("p1", true), ("p2", false)]) := by
  have h := c8_parameters_and_overwrite "root" none
    [.node "ns\x7dparameters" none
      [.node "p1" (some "ja") [], .node "p2" (some "nee") []],
     .node "x" (some "v") [], .node "x" (some "w") []] (by simp)
  refine ⟨h.1, ?_, ?_⟩
  · rw [h.2.1 "x"]
    have hx : lastTagged
        [.node "ns\x7dparameters" none
          [.node "p1" (some "ja") [], .node "p2" (some "nee") []],
         .node "x" (some "v") [], .node "x" (some "w") []] "x" =
        some (.node "x" (some "w") []) := rfl
    rw [hx]
    show some (childValue (.node "x" (some "w") [])) = _
    unfold childValue
    rw [if_neg (by decide)]
    simp [parseXmlNode]
  · rw [h.2.1 "parameters"]
    have hp : lastTagged
        [.node "ns\x7dparameters" none
          [.node "p1" (some "ja") [], .node "p2" (some "nee") []],
         .node "x" (some "v") [], .node "x" (some "w") []] "parameters" =
        some (.node "ns\x7dparameters" none
          [.node "p1" (some "ja") [], .node "p2" (some "nee") []]) := rfl
    rw [hp]
    show some (childValue (.node "ns\x7dparameters" none
      [.node "p1" (some "ja") [], .node "p2" (some "nee") []])) = _
    unfold childValue
    rw [if_pos (by decide)]
    have hpp : paramPairs (.node "ns\x7dparameters" none
        [.node "p1" (some "ja") [], .node "p2" (some "nee") []]) =
        [("p1", true), ("p2", false)] := rfl
    rw [hpp]

/-- Helper for C9: one step of the in-place color update yields the
normalized row when the row is processable. -/
theorem update_one_ok (r : TableRow) (h : rowColorOk r = true) :
    (match r.color with
     | ColorVal.color rr gg bb =>
       Except.ok ({ r with color := ColorVal.color rr gg bb } : TableRow)
     | c =>
       match convert_to_color c with
       | .error e => Except.error e
       | .ok c' => Except.ok { r with color := c' }) = Except.ok (normRow r) := by
  cases hc : r.color with
  | color rr gg bb =>
    show Except.ok ({ r with color := ColorVal.color rr gg bb } : TableRow) =
      Except.ok (normRow r)
    have he : ({ r with color := ColorVal.color rr gg bb } : TableRow) = r := by
      rw [← hc]
    rw [he]
    simp [normRow, hc]
  | tup rr gg bb => simp [convert_to_color, normRow, hc]
  | str s =>
    cases hps : oMapM pyInt (splitOnChar ',' (pyStrip s)) with
    | none => simp [rowColorOk, hc, hps] at h
    | some l =>
      rcases l with _ | ⟨x, _ | ⟨y, _ | ⟨z, _ | ⟨w, tl⟩⟩⟩⟩
      · simp [rowColorOk, hc, hps] at h
      · simp [rowColorOk, hc, hps] at h
      · simp [rowColorOk, hc, hps] at h
      · simp [convert_to_color, hps, normRow, hc]
      · simp [rowColorOk, hc, hps] at h

/-- Helper for C9: on processable rows the in-place normalization succeeds
and maps each row to its normalized form. -/
theorem update_color_string_ok :
    ∀ (rows : List TableRow), (∀ r ∈ rows, rowColorOk r = true) →
      update_color_string rows = .ok (rows.map normRow)
  | [], _ => rfl
  | r :: rest, h => by
    have hr := update_one_ok r (h r (by simp))
    have ih := update_color_string_ok rest (fun x hx => h x (by simp [hx]))
    simp only [update_color_string] at ih ⊢
    simp only [exMapM]
    rw [hr, ih]
    rfl

/-- Helper for C9: on already-normalized rows the update returns them
unchanged. -/
theorem update_color_string_idem :
    ∀ (rows : List TableRow), (∀ r ∈ rows, ∃ a b c, r.color = .color a b c) →
      update_color_string rows = .ok rows
  | [], _ => rfl
  | r :: rest, h => by
    obtain ⟨a, b, c, hc⟩ := h r (by simp)
    have ih := update_color_string_idem rest (fun x hx => h x (by simp [hx]))
    simp only [update_color_string] at ih ⊢
    simp only [exMapM]
    have hr : (match r.color with
        | ColorVal.color rr gg bb =>
          Except.ok ({ r with color := ColorVal.color rr gg bb } : TableRow)
        | c =>
          match convert_to_color c with
          | .error e => Except.error e
          | .ok c' => Except.ok { r with color := c' }) = Except.ok r := by
      rw [hc]
      show Except.ok ({ r with color := ColorVal.color a b c } : TableRow) =
        Except.ok r
      rw [← hc]
    rw [hr, ih]

/-- Helper for C9: a processable row normalizes to a structured color. -/
theorem normRow_color_form (r : TableRow) (h : rowColorOk r = true) :
    ∃ a b c, (normRow r).color = .color a b c := by
  cases hc : r.color with
  | color a b c => exact ⟨a, b, c, by simp [normRow, hc]⟩
  | tup a b c => exact ⟨a, b, c, by simp [normRow, hc, convert_to_color]⟩
  | str s =>
    cases hps : oMapM pyInt (splitOnChar ',' (pyStrip s)) with
    | none => simp [rowColorOk, hc, hps] at h
    | some l =>
      rcases l with _ | ⟨x, _ | ⟨y, _ | ⟨z, _ | ⟨w, tl⟩⟩⟩⟩
      · simp [rowColorOk, hc, hps] at h
      · simp [rowColorOk, hc, hps] at h
      · simp [rowColorOk, hc, hps] at h
      · exact ⟨x, y, z, by simp [normRow, hc, convert_to_color, hps]⟩
      · simp [rowColorOk, hc, hps] at h

/-- C9: for every table entry whose color is a comma-separated string of
three integers, the public accessor returns that entry with the structured
color triple -- never the string form -- and a repeated access returns the
same normalized table again. -/
theorem c9_table_color_normalized (st : List TableRow)
    (hok : ∀ r ∈ st, rowColorOk r = true)
    (i : Nat) (row : TableRow) (s : List Char) (a b c : Int)
    (hi : st.get? i = some row) (hcol : row.color = .str s)
    (hp : oMapM pyInt (splitOnChar ',' (pyStrip s)) = some [a, b, c]) :
    classificationTable st = .ok (st.map normRow, st.map normRow) ∧
    ((st.map normRow).get? i).map TableRow.color = some (.color a b c) ∧
    classificationTable (st.map normRow) =
      .ok (st.map normRow, st.map normRow) := by
  refine ⟨?_, ?_, ?_⟩
  · simp only [classificationTable, update_color_string_ok st hok]
  · rw [List.get?_map, hi]
    simp only [Option.map_some']
    have : (normRow row).color = .color a b c := by
      simp [normRow, hcol, convert_to_color, hp]
    rw [this]
  · have hnorm : ∀ r ∈ st.map normRow, ∃ x y z, r.color = .color x y z := by
      intro r hr
      obtain ⟨r0, hr0, rfl⟩ := List.mem_map.mp hr
      exact normRow_color_form r0 (hok r0 hr0)
    simp only [classificationTable,
      update_color_string_idem (st.map normRow) hnorm]

/-- C9 witness: the table entry with color string "200, 25, 0". -/
theorem c9_table_color_normalized_witness :
    classificationTable [⟨0, .str "200, 25, 0".toList⟩] =
      .ok ([(⟨0, .str "200, 25, 0".toList⟩ : TableRow)].map normRow,
        [(⟨0, .str "200, 25, 0".toList⟩ : TableRow)].map normRow) ∧
    (([(⟨0, .str "200, 25, 0".toList⟩ : TableRow)].map normRow).get? 0).map
      TableRow.color = some (.color 200 25 0) ∧
    classificationTable
        ([(⟨0, .str "200, 25, 0".toList⟩ : TableRow)].map normRow) =
      .ok ([(⟨0, .str "200, 25, 0".toList⟩ : TableRow)].map normRow,
        [(⟨0, .str "200, 25, 0".toList⟩ : TableRow)].map normRow) :=
  c9_table_color_normalized [⟨0, .str "200, 25, 0".toList⟩] (by decide)
    0 ⟨0, .str "200, 25, 0".toList⟩ "200, 25, 0".toList 200 25 0
    rfl rfl (by decide)

/-- Helper for C4: a convertCell hit on a key with no unit conversion. -/
theorem convertCell_plain (off : ℤ) (key : String) (i : Nat)
    (row : List (List Char)) (cell : List Char) (v : ℚ)
    (hix : pyIndex row i = .ok cell) (hv : pyFloat cell = some v)
    (hs : ¬(v = -999999)) (h1 : ¬(key = "elevation"))
    (h2 : ¬(key = "corrected_depth")) (h3 : ¬(key = "Rf")) :
    convertCell off key i row = .ok (some v) := by
  simp only [convertCell, hix, hv, if_neg hs, if_neg h1, if_neg h2, if_neg h3]

/-- Helper for C4: a convertCell hit on the elevation key. -/
theorem convertCell_elev (off : ℤ) (i : Nat) (row : List (List Char))
    (cell : List Char) (v : ℚ)
    (hix : pyIndex row i = .ok cell) (hv : pyFloat cell = some v)
    (hs : ¬(v = -999999)) :
    convertCell off "elevation" i row =
      .ok (some ((off - pyIntTrunc (v * 1000) : ℤ) : ℚ)) := by
  simp only [convertCell, hix, hv, if_neg hs]
  simp

/-- Helper for C3 and C4: one derivation cell on numeric operands with a
nonzero divisor. -/
theorem rfCell_num (q f : ℚ) (hq : ¬(q = 0)) :
    rfCell (some q) (some f) = .ok (some (f / q)) := by
  simp [rfCell, pyNeZero, hq, pyDiv, Except.map]

/-- Helper for C4: full evaluation of the measurement pipeline on the
two-row block of the end-to-end scenario: the trailing empty fragment is
discarded, rows stay in ascending raw-elevation order, qc and fs pass
through, elevation becomes offset minus 1000 times the raw value, and Rf is
derived as fs/qc. -/
theorem c4_pipeline_eval :
    convertMeasurementData 0
      [("qc", some 0), ("fs", some 1), ("elevation", some 2)] ',' ';'
      "10,2.5,500;20,3.0,1000;".toList =
      (Except.ok ⟨[some (1/4), some (3/20)], [some (5/2), some 3],
        [some 10, some 20], [some (-500000), some (-1000000)], []⟩, none) := by
  have hsplit : splitDataRows ',' ';' "10,2.5,500;20,3.0,1000;".toList =
      [["10".toList, "2.5".toList, "500".toList],
       ["20".toList, "3.0".toList, "1000".toList]] := rfl
  have hsub : substituteElevation
      [("qc", some 0), ("fs", some 1), ("elevation", some 2)] =
      ([("qc", some 0), ("fs", some 1), ("elevation", some 2)], none) := rfl
  have h500 : pyFloat "500".toList = some ((500 : ℕ) : ℚ) := rfl
  have h1000 : pyFloat "1000".toList = some ((1000 : ℕ) : ℚ) := rfl
  have h10 : pyFloat "10".toList = some ((10 : ℕ) : ℚ) := rfl
  have h20 : pyFloat "20".toList = some ((20 : ℕ) : ℚ) := rfl
  have h25 : pyFloat "2.5".toList =
      some (((2 : ℕ) : ℚ) + ((5 : ℕ) : ℚ) / (10 : ℚ) ^ 1) := rfl
  have h30 : pyFloat "3.0".toList =
      some (((3 : ℕ) : ℚ) + ((0 : ℕ) : ℚ) / (10 : ℚ) ^ 1) := rfl
  have haelev : alookup "elevation"
      [("qc", some 0), ("fs", some 1), ("elevation", some 2)] =
      some (some 2) := rfl
  have hi13 : pyIndex ["10".toList, "2.5".toList, "500".toList] 2 =
      .ok "500".toList := rfl
  have hi23 : pyIndex ["20".toList, "3.0".toList, "1000".toList] 2 =
      .ok "1000".toList := rfl
  have hsort : sortPhase [("qc", some 0), ("fs", some 1), ("elevation", some 2)]
      [["10".toList, "2.5".toList, "500".toList],
       ["20".toList, "3.0".toList, "1000".toList]] =
      .ok [["10".toList, "2.5".toList, "500".toList],
       ["20".toList, "3.0".toList, "1000".toList]] := by
    simp only [sortPhase, sortRowsByElev, exMapM, elevKey, haelev, hi13, hi23,
      h500, h1000, List.foldl, insertKeyed]
    norm_num
  have hi11 : pyIndex ["10".toList, "2.5".toList, "500".toList] 0 =
      .ok "10".toList := rfl
  have hi21 : pyIndex ["20".toList, "3.0".toList, "1000".toList] 0 =
      .ok "20".toList := rfl
  have hi12 : pyIndex ["10".toList, "2.5".toList, "500".toList] 1 =
      .ok "2.5".toList := rfl
  have hi22 : pyIndex ["20".toList, "3.0".toList, "1000".toList] 1 =
      .ok "3.0".toList := rfl
  have haRf : alookup "Rf"
      [("qc", some 0), ("fs", some 1), ("elevation", some 2)] = none := rfl
  have hacd : alookup "corrected_depth"
      [("qc", some 0), ("fs", some 1), ("elevation", some 2)] = none := rfl
  have haqc : alookup "qc"
      [("qc", some 0), ("fs", some 1), ("elevation", some 2)] =
      some (some 0) := rfl
  have hafs : alookup "fs"
      [("qc", some 0), ("fs", some 1), ("elevation", some 2)] =
      some (some 1) := rfl
  have hcq1 := convertCell_plain 0 "qc" 0 _ _ _ hi11 h10 (by norm_num)
    (by decide) (by decide) (by decide)
  have hcq2 := convertCell_plain 0 "qc" 0 _ _ _ hi21 h20 (by norm_num)
    (by decide) (by decide) (by decide)
  have hcf1 := convertCell_plain 0 "fs" 1 _ _ _ hi12 h25 (by norm_num)
    (by decide) (by decide) (by decide)
  have hcf2 := convertCell_plain 0 "fs" 1 _ _ _ hi22 h30 (by norm_num)
    (by decide) (by decide) (by decide)
  have hce1 := convertCell_elev 0 2 _ _ _ hi13 h500 (by norm_num)
  have hce2 := convertCell_elev 0 2 _ _ _ hi23 h1000 (by norm_num)
  have htr1 : pyIntTrunc (((500 : ℕ) : ℚ) * 1000) = 500000 := by
    rw [pyIntTrunc, if_pos (by norm_num)]
    norm_num
  have htr2 : pyIntTrunc (((1000 : ℕ) : ℚ) * 1000) = 1000000 := by
    rw [pyIntTrunc, if_pos (by norm_num)]
    norm_num
  have hqc : seriesFor 0 [("qc", some 0), ("fs", some 1), ("elevation", some 2)]
      "qc" [["10".toList, "2.5".toList, "500".toList],
        ["20".toList, "3.0".toList, "1000".toList]] =
      .ok [some ((10 : ℕ) : ℚ), some ((20 : ℕ) : ℚ)] := by
    simp only [seriesFor, haqc, exMapM, hcq1, hcq2]
  have hfs : seriesFor 0 [("qc", some 0), ("fs", some 1), ("elevation", some 2)]
      "fs" [["10".toList, "2.5".toList, "500".toList],
        ["20".toList, "3.0".toList, "1000".toList]] =
      .ok [some (((2 : ℕ) : ℚ) + ((5 : ℕ) : ℚ) / (10 : ℚ) ^ 1),
        some (((3 : ℕ) : ℚ) + ((0 : ℕ) : ℚ) / (10 : ℚ) ^ 1)] := by
    simp only [seriesFor, hafs, exMapM, hcf1, hcf2]
  have helev : seriesFor 0
      [("qc", some 0), ("fs", some 1), ("elevation", some 2)] "elevation"
      [["10".toList, "2.5".toList, "500".toList],
        ["20".toList, "3.0".toList, "1000".toList]] =
      .ok [some (((0 - 500000 : ℤ) : ℚ)), some (((0 - 1000000 : ℤ) : ℚ))] := by
    simp only [seriesFor, haelev, exMapM, hce1, hce2, htr1, htr2]
  have hRf : seriesFor 0 [("qc", some 0), ("fs", some 1), ("elevation", some 2)]
      "Rf" [["10".toList, "2.5".toList, "500".toList],
        ["20".toList, "3.0".toList, "1000".toList]] = .ok [] := by
    simp only [seriesFor, haRf]
  have hcd : seriesFor 0 [("qc", some 0), ("fs", some 1), ("elevation", some 2)]
      "corrected_depth" [["10".toList, "2.5".toList, "500".toList],
        ["20".toList, "3.0".toList, "1000".toList]] = .ok [] := by
    simp only [seriesFor, hacd]
  have hrc1 := rfCell_num ((10 : ℕ) : ℚ)
    (((2 : ℕ) : ℚ) + ((5 : ℕ) : ℚ) / (10 : ℚ) ^ 1) (by norm_num)
  have hrc2 := rfCell_num ((20 : ℕ) : ℚ)
    (((3 : ℕ) : ℚ) + ((0 : ℕ) : ℚ) / (10 : ℚ) ^ 1) (by norm_num)
  have hstep : rfStep ⟨[], [some (((2 : ℕ) : ℚ) + ((5 : ℕ) : ℚ) / (10 : ℚ) ^ 1),
        some (((3 : ℕ) : ℚ) + ((0 : ℕ) : ℚ) / (10 : ℚ) ^ 1)],
      [some ((10 : ℕ) : ℚ), some ((20 : ℕ) : ℚ)],
      [some (((0 - 500000 : ℤ) : ℚ)), some (((0 - 1000000 : ℤ) : ℚ))], []⟩ =
      .ok ⟨[some ((((2 : ℕ) : ℚ) + ((5 : ℕ) : ℚ) / (10 : ℚ) ^ 1) / ((10 : ℕ) : ℚ)),
          some ((((3 : ℕ) : ℚ) + ((0 : ℕ) : ℚ) / (10 : ℚ) ^ 1) / ((20 : ℕ) : ℚ))],
        [some (((2 : ℕ) : ℚ) + ((5 : ℕ) : ℚ) / (10 : ℚ) ^ 1),
          some (((3 : ℕ) : ℚ) + ((0 : ℕ) : ℚ) / (10 : ℚ) ^ 1)],
        [some ((10 : ℕ) : ℚ), some ((20 : ℕ) : ℚ)],
        [some (((0 - 500000 : ℤ) : ℚ)), some (((0 - 1000000 : ℤ) : ℚ))], []⟩ := by
    simp only [rfStep]
    simp only [if_true, eq_self_iff_true, deriveRf, hrc1, hrc2]
  simp only [convertMeasurementData, hsplit, hsub, hsort, hqc, hfs, helev, hRf,
    hcd, hstep, Prod.mk.injEq]
  refine ⟨?_, trivial⟩
  norm_num [MeasData.mk.injEq]

/-- C4 counterexample: on the end-to-end scenario input ("10,2.5,500;
20,3.0,1000;" with separators comma/semicolon, qc=0, fs=1, elevation=2,
offset 0) the elevation series is not [-500, -1000] as the claim states: the
code stores milli-metric values, a factor 1000 larger in magnitude. -/
theorem c4_counterexample :
    (convertMeasurementData 0
      [("qc", some 0), ("fs", some 1), ("elevation", some 2)] ',' ';'
      "10,2.5,500;20,3.0,1000;".toList).1.map MeasData.elevation ≠
      Except.ok [some (-500 : ℚ), some (-1000 : ℚ)] := by
  rw [c4_pipeline_eval]
  simp only [Except.map]
  norm_num [MeasData.mk.injEq]

/-- C4 (amended): the end-to-end scenario discards the trailing empty
fragment, keeps the rows in ascending raw-elevation order, and yields
exactly the rows (qc=10, fs=2.5, elev=-500000) followed by (qc=20, fs=3.0,
elev=-1000000) -- the elevations are stored milli-metric (-500 m and
-1000 m), a factor 1000 larger in magnitude than the -500 and -1000 the
claim names; Rf is derived as fs/qc and corrected_depth stays unmapped. -/
theorem c4_end_to_end_rows :
    (convertMeasurementData 0
      [("qc", some 0), ("fs", some 1), ("elevation", some 2)] ',' ';'
      "10,2.5,500;20,3.0,1000;".toList).1 =
      Except.ok ⟨[some (1/4), some (3/20)], [some (5/2), some 3],
        [some 10, some 20], [some (-500000), some (-1000000)], []⟩ := by
  rw [c4_pipeline_eval]

/-- C2: a one-row document whose parameters map neither a depth column nor a
penetration-length column.  The intended behavior (the claim, and the
UserError conversion at line 94) is a DataFieldMissing-style failure naming
the tag, but line 86 stores None under "elevation", the sort key lambda of
line 90 evaluates x[None], and the resulting TypeError propagates unhandled:
the except clause catches only KeyError, which can no longer occur. -/
theorem c2_missing_both_columns_type_error :
    (convertFromParams 0 [("coneResistance", true), ("localFriction", true)]
      ',' ';' "1,2;".toList).1 = Except.error PyErr.typeError := rfl

end Bro
